import Mathlib

/-!
Shallow embedding of `CheckStructure` (src/CheckStructure.py), a per-frame
structure-checking analysis over a molecular-dynamics trajectory.  The class
scans each frame for atomic overlaps (pairs of atoms closer than `atomcut`,
found through the external `self_capped_distance` neighbour search) and for
over-length bonds (intra-group bonds longer than `bondcut`), and appends one
entry to `results.badframes` for every frame with at least one violation.

Modelling choices
* Distances and bond lengths are rationals (`ℚ`); the periodic Euclidean
  distance between two positional indices of the atom group, which the Python
  code obtains from positions plus box dimensions through the external
  MDAnalysis library, is carried as a function `dist : Nat → Nat → ℚ` in the
  per-frame state, and bond lengths (`TopologyGroup.values()`) are carried
  with each bond.
* `ag.intra_bonds` raising `AttributeError` (MDAnalysis raises `NoDataError`,
  a subclass of `AttributeError`, when the group has no bonds) is modelled by
  `intraBonds = none`; a resolvable bond table is `intraBonds = some bonds`.
* Python exceptions become an `Except PyError` result; `warnings.warn`
  becomes an explicit list of warning strings produced by the frame.
-/

namespace CheckStructureSpec

/-- One reported overlap: `(atom1 ix, atom2 ix, distance)`. -/
abbrev OverlapEntry := Nat × Nat × ℚ

/-- One bond of the group, as reported: `(atom1 ix, atom2 ix, current length)`.
`TopologyGroup.indices` gives the two 0-based universe (`ix`) indices and
`TopologyGroup.values()` the current length. -/
abbrev BondEntry := Nat × Nat × ℚ

/-- One entry of `results.badframes`:
`(frame_id, overlap_info, bond_info)`. -/
abbrev BadEntry := Nat × Option (List OverlapEntry) × Option (List BondEntry)

/-- Python-level exceptions that the scan can raise. -/
inductive PyError where
  | noData (msg : String)
  | unboundLocal (name : String)
  deriving Repr, DecidableEq

/-- Per-frame state of the analysed atom group: number of atoms, periodic
distance between positional indices (positions plus box dimensions),
translation of positional index to the stable MDAnalysis `ix` identifier,
and the intra-group bond table (`none` when `ag.intra_bonds` is not
resolvable, i.e. raises `AttributeError`). -/
structure FrameState where
  nAtoms : Nat
  dist : Nat → Nat → ℚ
  ix : Nat → Nat
  intraBonds : Option (List BondEntry)

instance : Inhabited FrameState :=
  ⟨{ nAtoms := 0, dist := fun _ _ => 0, ix := fun n => n, intraBonds := none }⟩

/-- The atom group handed to the constructor: whether the underlying universe
carries any bond topology (`hasattr(ag.universe.atoms, "bonds")`), and the
state the group presents at each trajectory frame. -/
structure AtomGroupU where
  universeHasBonds : Bool
  frames : List FrameState

/-- Configuration stored by `CheckStructure.__init__`: `self.atomcut` and
`self.bondcut`, each `none` when the corresponding check is disabled. -/
structure Config where
  atomcut : Option ℚ
  bondcut : Option ℚ
  deriving Repr, DecidableEq

/-- Modelled from the spec: `MDAnalysis.lib.distances.self_capped_distance`
is external to this repository.  Per the spec it returns every unordered
pair of distinct atoms of the group whose Euclidean distance under the
current periodic box is less than or equal to `max_cutoff`, each pair
emitted once together with its distance, in a deterministic enumeration
order (modelled here as lexicographic over `i < j`). -/
def self_capped_distance (n : Nat) (dist : Nat → Nat → ℚ) (maxCutoff : ℚ) :
    List ((Nat × Nat) × ℚ) :=
  (List.range n).flatMap fun i =>
    (List.range n).filterMap fun j =>
      if i < j ∧ dist i j ≤ maxCutoff then some ((i, j), dist i j) else none

/-- The error message of `CheckStructure.__init__`. -/
def noBondsErrmsg : String :=
  "Universe has no bonds, cannot carry out bond analysis, please set bondcut to None"

/-- The warning message emitted by `_single_frame` when the group has no
resolvable bonds at the current frame. -/
def noBondsWarning (frameIndex : Nat) : String :=
  "atomgroup has no bonds for frame " ++ toString frameIndex

/-- `CheckStructure.__init__`: store the cutoffs; if `bondcut` is not `None`
and the atoms of the universe carry no bond topology, raise `NoDataError` before
any frame is processed. -/
def init (ag : AtomGroupU) (atomcut bondcut : Option ℚ) : Except PyError Config :=
  match bondcut with
  | some _ =>
      if ¬ ag.universeHasBonds then .error (.noData noBondsErrmsg)
      else .ok { atomcut := atomcut, bondcut := bondcut }
  | none => .ok { atomcut := atomcut, bondcut := bondcut }

/-- The overlap branch of `_single_frame`: skipped when `atomcut` is `None`;
otherwise run the capped neighbour search, and when at least one pair was
found, translate positional indices to `ix` identifiers and attach the
distances.  `none` both when the check is disabled and when no pair
qualifies. -/
def overlapsOf (atomcut : Option ℚ) (f : FrameState) : Option (List OverlapEntry) :=
  match atomcut with
  | none => none
  | some ac =>
      if 0 < (self_capped_distance f.nAtoms f.dist ac).length then
        some ((self_capped_distance f.nAtoms f.dist ac).map
          fun pr => (f.ix pr.1.1, f.ix pr.1.2, pr.2))
      else none

/-- The bond selection of `_single_frame` once `ag.intra_bonds` resolved:
`np.where(values() > bondcut)` followed by fancy indexing is an
order-preserving selection of the bonds whose length strictly exceeds the
cutoff; `longbonds` stays `None` when no bond qualifies. -/
def longbondsOf (bondcut : ℚ) (bonds : List BondEntry) : Option (List BondEntry) :=
  if 0 < (bonds.filter fun b => bondcut < b.2.2).length then
    some (bonds.filter fun b => bondcut < b.2.2)
  else none

/-- Record emission at the end of `_single_frame`: append
`(frame_index, overlaps, longbonds)` exactly when either is not `None`. -/
def emitRecord (frameIndex : Nat) (overlaps : Option (List OverlapEntry))
    (longbonds : Option (List BondEntry)) : Option BadEntry :=
  if overlaps.isSome || longbonds.isSome then some (frameIndex, overlaps, longbonds)
  else none

/-- Name of the local variable of `_single_frame` that is read without ever
having been assigned when `ag.intra_bonds` raises `AttributeError`. -/
def bondIdsLocal : String :=
  "bond_ids"

/-- Outcome of one `_single_frame` call: the warnings it issued, and either
the optional record appended to `results.badframes` or the Python exception
it raised. -/
structure FrameOutcome where
  warnings : List String
  result : Except PyError (Option BadEntry)
  deriving Repr

/-- `CheckStructure._single_frame`.  The bond branch mirrors the source
control flow: when `ag.intra_bonds` raises `AttributeError`, the handler
warns — and then the very next line reads the never-assigned local
`bond_ids`, so the frame raises `UnboundLocalError`. -/
def singleFrame (atomcut bondcut : Option ℚ) (f : FrameState) (frameIndex : Nat) :
    FrameOutcome :=
  let overlaps := overlapsOf atomcut f
  match bondcut with
  | none =>
      { warnings := [], result := .ok (emitRecord frameIndex overlaps none) }
  | some bc =>
      match f.intraBonds with
      | none =>
          { warnings := [noBondsWarning frameIndex],
            result := .error (.unboundLocal bondIdsLocal) }
      | some bonds =>
          { warnings := [],
            result := .ok (emitRecord frameIndex overlaps (longbondsOf bc bonds)) }

/-- The frame loop of `AnalysisBase.run` from frame index `i` on, carrying
the accumulated `results.badframes`; a raised exception aborts the run. -/
def runFrom (cfg : Config) (i : Nat) (frames : List FrameState)
    (acc : List BadEntry) : Except PyError (List BadEntry) :=
  match frames with
  | [] => .ok acc
  | f :: rest =>
      match (singleFrame cfg.atomcut cfg.bondcut f i).result with
      | .error e => .error e
      | .ok rec => runFrom cfg (i + 1) rest (acc ++ rec.toList)

/-- `CheckStructure(ag, atomcut, bondcut).run().results.badframes`:
construct (which may raise `NoDataError`), `_prepare` the empty result
list, then process every frame in order. -/
def runCheckStructure (ag : AtomGroupU) (atomcut bondcut : Option ℚ) :
    Except PyError (List BadEntry) :=
  match init ag atomcut bondcut with
  | .error e => .error e
  | .ok cfg => runFrom cfg 0 ag.frames []

/-- Default value of the `atomcut` keyword argument. -/
def defaultAtomcut : Option ℚ := some 0.8

/-- Default value of the `bondcut` keyword argument. -/
def defaultBondcut : Option ℚ := some 2.5

/-- `CheckStructure(ag).run().results.badframes` with both cutoffs left at
their defaults. -/
def runDefault (ag : AtomGroupU) : Except PyError (List BadEntry) :=
  runCheckStructure ag defaultAtomcut defaultBondcut

/-- A one-atom frame with no resolvable bond table, used as concrete input. -/
def frameOneAtom : FrameState :=
  { nAtoms := 1, dist := fun _ _ => 0, ix := fun n => n, intraBonds := none }

/-- A two-atom frame with no resolvable bond table, used as concrete input. -/
def frameTwoAtoms : FrameState :=
  { nAtoms := 2, dist := fun _ _ => 1, ix := fun n => n, intraBonds := none }

/-- A three-atom frame whose first two atoms coincide, with an empty bond
table, used as concrete input. -/
def frameOverlap : FrameState :=
  { nAtoms := 3,
    dist := fun i j => if (i = 0 ∧ j = 1) ∨ (i = 1 ∧ j = 0) then 0 else 3,
    ix := fun n => n + 10,
    intraBonds := some [] }

/-- A frame carrying one bond of length 3, used as concrete input. -/
def frameLongBond : FrameState :=
  { nAtoms := 0, dist := fun _ _ => 0, ix := fun n => n,
    intraBonds := some [(0, 1, (3 : ℚ))] }

/-- An atom group whose universe carries no bond topology. -/
def agNoTopology : AtomGroupU :=
  { universeHasBonds := false, frames := [] }

/-- An atom group whose universe has bonds but whose single frame has no
resolvable intra-group bonds. -/
def agBondlessFrame : AtomGroupU :=
  { universeHasBonds := true, frames := [frameTwoAtoms] }

/-- An atom group with one frame containing an atomic overlap. -/
def agOverlap : AtomGroupU :=
  { universeHasBonds := true, frames := [frameOverlap] }

end CheckStructureSpec

namespace CheckStructureSpec

lemma emitRecord_eq_none_iff {i : Nat} {o : Option (List OverlapEntry)}
    {b : Option (List BondEntry)} :
    emitRecord i o b = none ↔ o = none ∧ b = none := by
  unfold emitRecord
  constructor
  · intro h
    split at h
    · exact absurd h (by simp)
    · rename_i hc
      simp only [Bool.or_eq_true, Option.isSome_iff_exists] at hc
      push_neg at hc
      cases o <;> cases b <;> simp_all
  · rintro ⟨rfl, rfl⟩
    simp

lemma emitRecord_eq_some_iff {i : Nat} {o : Option (List OverlapEntry)}
    {b : Option (List BondEntry)} {r : BadEntry} :
    emitRecord i o b = some r ↔ (o.isSome ∨ b.isSome) ∧ r = (i, o, b) := by
  unfold emitRecord
  split
  · rename_i hc
    simp only [Bool.or_eq_true] at hc
    constructor
    · intro h
      exact ⟨hc, (Option.some_inj.mp h).symm⟩
    · rintro ⟨-, rfl⟩
      rfl
  · rename_i hc
    constructor
    · intro h
      exact absurd h (by simp)
    · rintro ⟨hor, rfl⟩
      rw [Bool.or_eq_true] at hc
      exact absurd hor hc

lemma emitRecord_isSome_iff {i : Nat} {o : Option (List OverlapEntry)}
    {b : Option (List BondEntry)} :
    (emitRecord i o b).isSome ↔ (o.isSome ∨ b.isSome) := by
  unfold emitRecord
  split
  · rename_i hc
    rw [Bool.or_eq_true] at hc
    simpa using hc
  · rename_i hc
    rw [Bool.or_eq_true] at hc
    simpa using hc

lemma self_capped_mem_key {dist : Nat → Nat → ℚ} {c : ℚ} {i b : Nat}
    {p : Nat × Nat} :
    p ∈ Option.map Prod.fst
      (if i < b ∧ dist i b ≤ c then some ((i, b), dist i b) else none) →
      p = (i, b) := by
  intro hb
  split at hb
  · simp only [Option.map_some', Option.mem_def, Option.some_inj] at hb
    exact hb.symm
  · simp at hb

lemma mem_self_capped_distance {n : Nat} {dist : Nat → Nat → ℚ} {c : ℚ}
    {i j : Nat} {d : ℚ} :
    ((i, j), d) ∈ self_capped_distance n dist c ↔
      i < j ∧ j < n ∧ d = dist i j ∧ dist i j ≤ c := by
  simp only [self_capped_distance, List.mem_flatMap, List.mem_filterMap,
    List.mem_range]
  constructor
  · rintro ⟨a, ha, b, hb, hab⟩
    split at hab
    · rename_i h
      obtain ⟨⟨rfl, rfl⟩, rfl⟩ := by simpa using hab.symm
      exact ⟨h.1, hb, rfl, h.2⟩
    · exact absurd hab (by simp)
  · rintro ⟨hij, hjn, rfl, hle⟩
    exact ⟨i, lt_trans hij hjn, j, hjn, by rw [if_pos ⟨hij, hle⟩]⟩

lemma self_capped_pairs_nodup (n : Nat) (dist : Nat → Nat → ℚ) (c : ℚ) :
    ((self_capped_distance n dist c).map Prod.fst).Nodup := by
  unfold self_capped_distance
  rw [List.map_flatMap, List.nodup_flatMap]
  constructor
  · intro i _
    rw [List.map_filterMap]
    refine List.Nodup.filterMap ?_ (List.nodup_range n)
    intro a a' p hp hp'
    have h1 := self_capped_mem_key hp
    have h2 := self_capped_mem_key hp'
    rw [h1] at h2
    simpa using h2
  · refine (List.pairwise_lt_range n).imp ?_
    intro a b hab
    simp only [Function.onFun]
    rw [List.map_filterMap, List.map_filterMap]
    intro p hp hp'
    rw [List.mem_filterMap] at hp hp'
    obtain ⟨j, -, hj⟩ := hp
    obtain ⟨j', -, hj'⟩ := hp'
    have h1 := self_capped_mem_key hj
    have h2 := self_capped_mem_key hj'
    rw [h1] at h2
    have h3 := congrArg Prod.fst h2
    simp only [] at h3
    omega

lemma self_capped_eq_nil_iff {n : Nat} {dist : Nat → Nat → ℚ} {c : ℚ} :
    self_capped_distance n dist c = [] ↔
      ∀ i j, i < j → j < n → ¬ dist i j ≤ c := by
  rw [List.eq_nil_iff_forall_not_mem]
  constructor
  · intro h i j hij hjn hle
    exact h ((i, j), dist i j) (mem_self_capped_distance.mpr ⟨hij, hjn, rfl, hle⟩)
  · rintro h ⟨⟨i, j⟩, d⟩ hmem
    obtain ⟨hij, hjn, -, hle⟩ := mem_self_capped_distance.mp hmem
    exact h i j hij hjn hle

lemma filter_bonds_eq_nil_iff {bc : ℚ} {bonds : List BondEntry} :
    (bonds.filter fun b => bc < b.2.2) = [] ↔ ∀ e ∈ bonds, e.2.2 ≤ bc := by
  rw [List.filter_eq_nil_iff]
  constructor
  · intro h e he
    have := h e he
    simpa using this
  · intro h e he
    simpa using h e he

lemma longbondsOf_eq_none_iff {bc : ℚ} {bonds : List BondEntry} :
    longbondsOf bc bonds = none ↔ ∀ e ∈ bonds, e.2.2 ≤ bc := by
  unfold longbondsOf
  split
  · rename_i h
    constructor
    · intro h'
      exact absurd h' (by simp)
    · intro hall
      rw [List.length_pos] at h
      exact absurd (filter_bonds_eq_nil_iff.mpr hall) h
  · rename_i h
    rw [Nat.not_lt, Nat.le_zero, List.length_eq_zero] at h
    exact iff_of_true rfl (filter_bonds_eq_nil_iff.mp h)

lemma longbondsOf_eq_some {bc : ℚ} {bonds l : List BondEntry}
    (h : longbondsOf bc bonds = some l) :
    l = (bonds.filter fun b => bc < b.2.2) ∧ l ≠ [] := by
  unfold longbondsOf at h
  split at h
  · rename_i hpos
    obtain rfl := Option.some_inj.mp h
    refine ⟨rfl, ?_⟩
    rw [List.length_pos] at hpos
    exact hpos
  · exact absurd h (by simp)

lemma overlapsOf_some_eq_none_iff {ac : ℚ} {f : FrameState} :
    overlapsOf (some ac) f = none ↔
      self_capped_distance f.nAtoms f.dist ac = [] := by
  show (if 0 < (self_capped_distance f.nAtoms f.dist ac).length then
      some ((self_capped_distance f.nAtoms f.dist ac).map
        fun pr => (f.ix pr.1.1, f.ix pr.1.2, pr.2))
    else none) = none ↔ self_capped_distance f.nAtoms f.dist ac = []
  split
  · rename_i h
    rw [List.length_pos] at h
    exact iff_of_false (by simp) h
  · rename_i h
    rw [Nat.not_lt, Nat.le_zero, List.length_eq_zero] at h
    exact iff_of_true rfl h

lemma overlapsOf_eq_some {ac : ℚ} {f : FrameState} {l : List OverlapEntry}
    (h : overlapsOf (some ac) f = some l) :
    l = (self_capped_distance f.nAtoms f.dist ac).map
        (fun pr => (f.ix pr.1.1, f.ix pr.1.2, pr.2)) ∧
      self_capped_distance f.nAtoms f.dist ac ≠ [] := by
  rw [show overlapsOf (some ac) f =
      (if 0 < (self_capped_distance f.nAtoms f.dist ac).length then
        some ((self_capped_distance f.nAtoms f.dist ac).map
          fun pr => (f.ix pr.1.1, f.ix pr.1.2, pr.2))
      else none) from rfl] at h
  split at h
  · rename_i hpos
    obtain rfl := Option.some_inj.mp h
    rw [List.length_pos] at hpos
    exact ⟨rfl, hpos⟩
  · exact absurd h (by simp)

lemma singleFrame_result_ok {a b : Option ℚ} {f : FrameState} {i : Nat}
    {rec : Option BadEntry}
    (h : (singleFrame a b f i).result = .ok rec) :
    ∃ lb, rec = emitRecord i (overlapsOf a f) lb ∧
      ((b = none ∧ lb = none) ∨
        (∃ bc bonds, b = some bc ∧ f.intraBonds = some bonds ∧
          lb = longbondsOf bc bonds)) := by
  obtain ⟨n, dst, ixf, tb⟩ := f
  cases b with
  | none =>
      simp only [singleFrame] at h
      exact ⟨none, (Except.ok.inj h).symm, Or.inl ⟨rfl, rfl⟩⟩
  | some bc =>
      cases tb with
      | none => simp [singleFrame] at h
      | some bonds =>
          simp only [singleFrame] at h
          exact ⟨longbondsOf bc bonds, (Except.ok.inj h).symm,
            Or.inr ⟨bc, bonds, rfl, rfl, rfl⟩⟩

lemma singleFrame_record_fst {a b : Option ℚ} {f : FrameState} {i : Nat}
    {r : BadEntry}
    (h : (singleFrame a b f i).result = .ok (some r)) : r.1 = i := by
  obtain ⟨lb, hrec, -⟩ := singleFrame_result_ok h
  obtain ⟨-, rfl⟩ := emitRecord_eq_some_iff.mp hrec.symm
  rfl

lemma runFrom_ok_spec {cfg : Config} {frames : List FrameState} {i : Nat}
    {acc bf : List BadEntry} (h : runFrom cfg i frames acc = .ok bf) :
    ∃ tail, bf = acc ++ tail ∧
      tail.Pairwise (fun x y => x.1 < y.1) ∧
      ∀ e ∈ tail, i ≤ e.1 ∧ e.1 < i + frames.length ∧
        (singleFrame cfg.atomcut cfg.bondcut
          (frames.getD (e.1 - i) default) e.1).result = .ok (some e) := by
  induction frames generalizing i acc with
  | nil =>
      refine ⟨[], ?_, List.Pairwise.nil, by simp⟩
      simp only [runFrom] at h
      obtain rfl := Except.ok.inj h
      simp
  | cons f rest ih =>
      simp only [runFrom] at h
      cases hres : (singleFrame cfg.atomcut cfg.bondcut f i).result with
      | error e =>
          rw [hres] at h
          exact absurd h (by simp)
      | ok rec =>
          rw [hres] at h
          obtain ⟨tail', rfl, hpw, hprop⟩ := ih h
          refine ⟨rec.toList ++ tail', by rw [List.append_assoc], ?_, ?_⟩
          · cases rec with
            | none => simpa using hpw
            | some r =>
                have hri : r.1 = i := singleFrame_record_fst hres
                simp only [Option.toList_some, List.singleton_append]
                refine List.Pairwise.cons ?_ hpw
                intro y hy
                have := (hprop y hy).1
                omega
          · intro e he
            rw [List.mem_append] at he
            cases he with
            | inl hel =>
                cases rec with
                | none => simp at hel
                | some r =>
                    simp only [Option.toList_some, List.mem_singleton] at hel
                    subst hel
                    have hri : e.1 = i := singleFrame_record_fst hres
                    refine ⟨le_of_eq hri.symm,
                      by simp only [List.length_cons]; omega, ?_⟩
                    have h0 : e.1 - i = 0 := by omega
                    rw [h0, List.getD_cons_zero, hri]
                    exact hres
            | inr her =>
                obtain ⟨h1, h2, h3⟩ := hprop e her
                have hsub : e.1 - i = (e.1 - (i + 1)) + 1 := by omega
                refine ⟨by omega, by simp only [List.length_cons]; omega, ?_⟩
                rw [hsub, List.getD_cons_succ]
                exact h3

lemma init_ok_eq {ag : AtomGroupU} {a b : Option ℚ} {cfg : Config}
    (h : init ag a b = .ok cfg) : cfg = { atomcut := a, bondcut := b } := by
  unfold init at h
  cases b with
  | none => exact (Except.ok.inj h).symm
  | some bc =>
      by_cases hb : ag.universeHasBonds = true
      · rw [if_neg (not_not_intro hb)] at h
        exact (Except.ok.inj h).symm
      · rw [if_pos hb] at h
        exact absurd h (by simp)

lemma runCheckStructure_ok_spec {ag : AtomGroupU} {a b : Option ℚ}
    {bf : List BadEntry} (h : runCheckStructure ag a b = .ok bf) :
    bf.Pairwise (fun x y => x.1 < y.1) ∧
      ∀ e ∈ bf, e.1 < ag.frames.length ∧
        (singleFrame a b (ag.frames.getD e.1 default) e.1).result
          = .ok (some e) := by
  unfold runCheckStructure at h
  cases hinit : init ag a b with
  | error e =>
      rw [hinit] at h
      exact absurd h (by simp)
  | ok cfg =>
      rw [hinit] at h
      obtain rfl := init_ok_eq hinit
      obtain ⟨tail, rfl, hpw, hprop⟩ := runFrom_ok_spec h
      refine ⟨hpw, fun e he => ?_⟩
      obtain ⟨-, h2, h3⟩ := hprop e he
      simp only [Nat.sub_zero] at h3
      exact ⟨by omega, h3⟩

end CheckStructureSpec

namespace CheckStructureSpec

/-- Claim C1 (code bug, evaluated at the failing input): when bond checking
is enabled and the atom group has no resolvable bonds at a frame, the code
does emit the warning naming the frame index, but it does not treat the bond
result as null and continue — the very next line reads the never-assigned
local `bond_ids`, so the whole run aborts with `UnboundLocalError` instead of
completing. -/
theorem c1_frame_missing_bonds_crash :
    runCheckStructure agBondlessFrame none (some (5/2))
        = .error (.unboundLocal bondIdsLocal) ∧
      (singleFrame none (some (5/2)) frameTwoAtoms 0).warnings
        = [noBondsWarning 0] ∧
      noBondsWarning 0 = "atomgroup has no bonds for frame 0" :=
  ⟨rfl, rfl, rfl⟩

/-- Claim C2: with `bondcut` enabled, constructing the scanner on an atom
group whose universe carries no bond topology fails with the `NoDataError`
missing-topology error before any frame is processed, so no result entries
are ever produced; with `bondcut = None`, construction on such a system
succeeds. -/
theorem c2_missing_topology_fail_fast (ag : AtomGroupU) (atomcut : Option ℚ)
    (bc : ℚ) (h : ag.universeHasBonds = false) :
    runCheckStructure ag atomcut (some bc) = .error (.noData noBondsErrmsg) ∧
      (∀ bf, runCheckStructure ag atomcut (some bc) ≠ .ok bf) ∧
      init ag atomcut none = .ok { atomcut := atomcut, bondcut := none } := by
  have hinit : init ag atomcut (some bc) = .error (.noData noBondsErrmsg) := by
    unfold init
    rw [h]
    simp
  refine ⟨?_, ?_, rfl⟩
  · unfold runCheckStructure
    rw [hinit]
  · intro bf hbf
    unfold runCheckStructure at hbf
    rw [hinit] at hbf
    exact absurd hbf (by simp)

/-- Witness for C2 at a concrete bondless system. -/
theorem c2_witness :
    agNoTopology.universeHasBonds = false ∧
      runCheckStructure agNoTopology none (some (5/2))
        = .error (.noData noBondsErrmsg) :=
  ⟨rfl, (c2_missing_topology_fail_fast agNoTopology none (5/2) rfl).1⟩

/-- Claim C3: a record is produced by `_single_frame` exactly when the
overlap result or the bond result is non-null; each result is non-null only
when the corresponding check is enabled and its violation list is nonempty,
so frames with zero overlaps and zero over-length bonds contribute no
entry. -/
theorem c3_record_iff_violations (a b : Option ℚ) (f : FrameState) (i : Nat)
    (rec : Option BadEntry)
    (h : (singleFrame a b f i).result = .ok rec) :
    ∃ lb, rec = emitRecord i (overlapsOf a f) lb ∧
      (rec.isSome ↔ ((overlapsOf a f).isSome ∨ lb.isSome)) ∧
      (rec = none ↔ overlapsOf a f = none ∧ lb = none) ∧
      (∀ l, overlapsOf a f = some l → a ≠ none ∧ l ≠ []) ∧
      (∀ l, lb = some l → b ≠ none ∧ l ≠ []) ∧
      (∀ r, rec = some r → r = (i, overlapsOf a f, lb)) := by
  obtain ⟨lb, hrec, hdisj⟩ := singleFrame_result_ok h
  subst hrec
  refine ⟨lb, rfl, emitRecord_isSome_iff, emitRecord_eq_none_iff, ?_, ?_, ?_⟩
  · intro l hl
    cases a with
    | none => exact absurd hl (by simp [overlapsOf])
    | some ac =>
        refine ⟨by simp, ?_⟩
        obtain ⟨rfl, hne⟩ := overlapsOf_eq_some hl
        intro hnil
        rw [List.map_eq_nil_iff] at hnil
        exact hne hnil
  · intro l hl
    rcases hdisj with ⟨rfl, rfl⟩ | ⟨bc, bonds, rfl, -, rfl⟩
    · exact absurd hl (by simp)
    · exact ⟨by simp, (longbondsOf_eq_some hl).2⟩
  · intro r hr
    exact (emitRecord_eq_some_iff.mp hr).2

/-- Witness for C3 at a concrete frame with both checks disabled. -/
theorem c3_witness :
    ∃ lb, (none : Option BadEntry)
        = emitRecord 0 (overlapsOf none frameOneAtom) lb ∧
      ((none : Option BadEntry).isSome ↔
        ((overlapsOf none frameOneAtom).isSome ∨ lb.isSome)) ∧
      ((none : Option BadEntry) = none ↔
        overlapsOf none frameOneAtom = none ∧ lb = none) ∧
      (∀ l, overlapsOf none frameOneAtom = some l →
        (none : Option ℚ) ≠ none ∧ l ≠ []) ∧
      (∀ l, lb = some l → (none : Option ℚ) ≠ none ∧ l ≠ []) ∧
      (∀ r, (none : Option BadEntry) = some r →
        r = (0, overlapsOf none frameOneAtom, lb)) :=
  c3_record_iff_violations none none frameOneAtom 0 none rfl

/-- Claim C4: with bond checking enabled and bond data present, the reported
bond list is exactly the subset of intra-group bonds whose current length
strictly exceeds the cutoff, each entry being the bond with its two stable
atom identifiers and its current length; a bond exactly at the cutoff is
never reported. -/
theorem c4_longbonds_strict_cutoff (a : Option ℚ) (bc : ℚ) (f : FrameState)
    (i : Nat) (bonds : List BondEntry) (hf : f.intraBonds = some bonds) :
    (singleFrame a (some bc) f i).result =
        .ok (emitRecord i (overlapsOf a f) (longbondsOf bc bonds)) ∧
      (∀ r : BadEntry,
        emitRecord i (overlapsOf a f) (longbondsOf bc bonds) = some r →
          r.2.2 = longbondsOf bc bonds) ∧
      (∀ l, longbondsOf bc bonds = some l →
        ∀ e : BondEntry, e ∈ l ↔ e ∈ bonds ∧ bc < e.2.2) ∧
      (longbondsOf bc bonds = none ↔ ∀ e ∈ bonds, e.2.2 ≤ bc) ∧
      (∀ e : BondEntry, e ∈ bonds → e.2.2 = bc →
        ∀ l, longbondsOf bc bonds = some l → e ∉ l) := by
  refine ⟨?_, ?_, ?_, longbondsOf_eq_none_iff, ?_⟩
  · obtain ⟨n, dst, ixf, tb⟩ := f
    simp only at hf
    subst hf
    rfl
  · intro r hr
    obtain ⟨-, rfl⟩ := emitRecord_eq_some_iff.mp hr
    rfl
  · intro l hl e
    obtain ⟨rfl, -⟩ := longbondsOf_eq_some hl
    simp [List.mem_filter]
  · intro e hmem heq l hl hel
    obtain ⟨rfl, -⟩ := longbondsOf_eq_some hl
    rw [List.mem_filter] at hel
    have h2 := hel.2
    simp only [decide_eq_true_eq] at h2
    rw [heq] at h2
    exact lt_irrefl bc h2

/-- Witness for C4 at a concrete frame with one bond of length 3 and
cutoff 1. -/
theorem c4_witness :
    (singleFrame none (some 1) frameLongBond 0).result =
      .ok (emitRecord 0 (overlapsOf none frameLongBond)
        (longbondsOf 1 [(0, 1, (3 : ℚ))])) :=
  (c4_longbonds_strict_cutoff none 1 frameLongBond 0 [(0, 1, (3 : ℚ))] rfl).1

/-- Claim C5: with overlap checking enabled, the overlap result is null
exactly when no pair of distinct atoms lies within the cutoff; otherwise the
reported list consists exactly of the qualifying pairs (distance less than
or equal to the cutoff), with self-pairs excluded, each unordered pair
emitted once, positional indices translated to stable `ix` identifiers, and
the emitted record carries that list. -/
theorem c5_overlap_pairs_exact (ac : ℚ) (f : FrameState) :
    (overlapsOf (some ac) f = none ↔
      ∀ i j, i < j → j < f.nAtoms → ¬ f.dist i j ≤ ac) ∧
      (∀ l, overlapsOf (some ac) f = some l →
        ∀ e : OverlapEntry, (e ∈ l ↔ ∃ i j, i < j ∧ j < f.nAtoms ∧
          f.dist i j ≤ ac ∧ e = (f.ix i, f.ix j, f.dist i j))) ∧
      ((self_capped_distance f.nAtoms f.dist ac).map Prod.fst).Nodup ∧
      (∀ pr ∈ self_capped_distance f.nAtoms f.dist ac, pr.1.1 ≠ pr.1.2) ∧
      (∀ (b : Option ℚ) (i : Nat) (rec : Option BadEntry) (r : BadEntry),
        (singleFrame (some ac) b f i).result = .ok rec → rec = some r →
          r.2.1 = overlapsOf (some ac) f) := by
  refine ⟨?_, ?_, self_capped_pairs_nodup _ _ _, ?_, ?_⟩
  · rw [overlapsOf_some_eq_none_iff, self_capped_eq_nil_iff]
  · intro l hl e
    obtain ⟨rfl, -⟩ := overlapsOf_eq_some hl
    rw [List.mem_map]
    constructor
    · rintro ⟨⟨⟨i, j⟩, d⟩, hmem, rfl⟩
      obtain ⟨hij, hjn, rfl, hle⟩ := mem_self_capped_distance.mp hmem
      exact ⟨i, j, hij, hjn, hle, rfl⟩
    · rintro ⟨i, j, hij, hjn, hle, rfl⟩
      exact ⟨((i, j), f.dist i j),
        mem_self_capped_distance.mpr ⟨hij, hjn, rfl, hle⟩, rfl⟩
  · rintro ⟨⟨i, j⟩, d⟩ hmem
    obtain ⟨hij, -, -, -⟩ := mem_self_capped_distance.mp hmem
    exact Nat.ne_of_lt hij
  · intro b i rec r h hrec
    subst hrec
    obtain ⟨lb, hrec2, -⟩ := singleFrame_result_ok h
    obtain ⟨-, rfl⟩ := emitRecord_eq_some_iff.mp hrec2.symm
    rfl

/-- Witness for C5: uniqueness of the reported pairs at a concrete frame. -/
theorem c5_witness :
    ((self_capped_distance frameTwoAtoms.nAtoms frameTwoAtoms.dist 1).map
      Prod.fst).Nodup :=
  (c5_overlap_pairs_exact 1 frameTwoAtoms).2.2.1

/-- Claim C6: every entry of a completed scan carries the 0-based frame
index at which it was produced by `_single_frame`, and those indices are
strictly increasing along the result sequence. -/
theorem c6_frame_indices_increasing (ag : AtomGroupU) (a b : Option ℚ)
    (bf : List BadEntry) (h : runCheckStructure ag a b = .ok bf) :
    bf.Pairwise (fun x y => x.1 < y.1) ∧
      ∀ e ∈ bf, e.1 < ag.frames.length ∧
        (singleFrame a b (ag.frames.getD e.1 default) e.1).result
          = .ok (some e) :=
  runCheckStructure_ok_spec h

/-- Witness for C6 at a concrete one-frame scan with one overlap. -/
theorem c6_witness :
    ([(0, some [(10, 11, (0 : ℚ))], (none : Option (List BondEntry)))]
        : List BadEntry).Pairwise (fun x y => x.1 < y.1) :=
  (c6_frame_indices_increasing agOverlap (some 1) none
    [(0, some [(10, 11, (0 : ℚ))], (none : Option (List BondEntry)))]
    (by rfl)).1

/-- Claim C7: with the overlap cutoff disabled the overlap field of every
emitted record is null and the frame outcome does not depend on the distance
data (the neighbour search is never consulted); symmetrically, with the bond
cutoff disabled the bond field of every emitted record is null and the frame
outcome does not depend on the bond table. -/
theorem c7_disabled_checks_null_fields :
    (∀ (ag : AtomGroupU) (b : Option ℚ) (bf : List BadEntry),
      runCheckStructure ag none b = .ok bf → ∀ e ∈ bf, e.2.1 = none) ∧
    (∀ (b : Option ℚ) (f : FrameState) (i : Nat) (d2 : Nat → Nat → ℚ),
      singleFrame none b f i = singleFrame none b { f with dist := d2 } i) ∧
    (∀ (ag : AtomGroupU) (a : Option ℚ) (bf : List BadEntry),
      runCheckStructure ag a none = .ok bf → ∀ e ∈ bf, e.2.2 = none) ∧
    (∀ (a : Option ℚ) (f : FrameState) (i : Nat)
      (tb2 : Option (List BondEntry)),
      singleFrame a none f i = singleFrame a none
        { f with intraBonds := tb2 } i) := by
  refine ⟨?_, ?_, ?_, ?_⟩
  · intro ag b bf h e he
    obtain ⟨-, hprop⟩ := runCheckStructure_ok_spec h
    obtain ⟨-, hsf⟩ := hprop e he
    obtain ⟨lb, hrec, -⟩ := singleFrame_result_ok hsf
    obtain ⟨-, hre⟩ := emitRecord_eq_some_iff.mp hrec.symm
    rw [hre]
    rfl
  · intro b f i d2
    obtain ⟨n, dst, ixf, tb⟩ := f
    cases b with
    | none => rfl
    | some bc =>
        cases tb with
        | none => rfl
        | some bonds => rfl
  · intro ag a bf h e he
    obtain ⟨-, hprop⟩ := runCheckStructure_ok_spec h
    obtain ⟨-, hsf⟩ := hprop e he
    obtain ⟨lb, hrec, hdisj⟩ := singleFrame_result_ok hsf
    rcases hdisj with ⟨-, rfl⟩ | ⟨bc, bonds, hbc, -, -⟩
    · obtain ⟨-, hre⟩ := emitRecord_eq_some_iff.mp hrec.symm
      rw [hre]
    · exact absurd hbc (by simp)
  · intro a f i tb2
    obtain ⟨n, dst, ixf, tb⟩ := f
    cases a <;> rfl

/-- Witness for C7: independence from the distance data at a concrete
frame. -/
theorem c7_witness :
    singleFrame none none frameOneAtom 0
      = singleFrame none none { frameOneAtom with dist := fun _ _ => 5 } 0 :=
  c7_disabled_checks_null_fields.2.1 none frameOneAtom 0 (fun _ _ => 5)

/-- Claim C8: the scan is deterministic — on identical inputs (same frame
states, bond tables and cutoffs) both the whole run and each per-frame
operation return identical results, including identical ordering of the
reported lists. -/
theorem c8_per_frame_deterministic (ag1 ag2 : AtomGroupU)
    (a1 a2 b1 b2 : Option ℚ) (hag : ag1 = ag2) (ha : a1 = a2) (hb : b1 = b2) :
    runCheckStructure ag1 a1 b1 = runCheckStructure ag2 a2 b2 ∧
      ∀ f1 f2 i1 i2, f1 = f2 → i1 = i2 →
        singleFrame a1 b1 f1 i1 = singleFrame a2 b2 f2 i2 := by
  subst hag
  subst ha
  subst hb
  exact ⟨rfl, by rintro f1 f2 i1 i2 rfl rfl; rfl⟩

/-- Witness for C8 at a concrete input. -/
theorem c8_witness :
    runCheckStructure agNoTopology none none
      = runCheckStructure agNoTopology none none :=
  (c8_per_frame_deterministic agNoTopology agNoTopology none none none none
    rfl rfl rfl).1

/-- Claim C9: the construction-time bond check probes the whole universe,
not the selected group: when the universe carries bonds, construction with
bond checking enabled succeeds whatever per-frame bond data the group has
(construction never reads the frames), and a frame without resolvable
intra-group bonds surfaces only later, through the per-frame missing-bonds
warning path. -/
theorem c9_init_probes_universe_bonds (ag : AtomGroupU) (atomcut : Option ℚ)
    (bc : ℚ) (f : FrameState) (i : Nat)
    (hu : ag.universeHasBonds = true) (hf : f.intraBonds = none) :
    init ag atomcut (some bc) = .ok { atomcut := atomcut, bondcut := some bc } ∧
      (∀ frames2, init
        { universeHasBonds := ag.universeHasBonds, frames := frames2 }
        atomcut (some bc) = init ag atomcut (some bc)) ∧
      (singleFrame atomcut (some bc) f i).warnings = [noBondsWarning i] := by
  obtain ⟨b, frames⟩ := ag
  obtain ⟨n, dst, ixf, tb⟩ := f
  simp only at hu hf
  subst hu
  subst hf
  refine ⟨?_, fun _ => rfl, ?_⟩
  · unfold init
    simp
  · simp [singleFrame]

/-- Witness for C9 at a concrete universe with bonds and a bondless frame. -/
theorem c9_witness :
    (singleFrame none (some (5/2)) frameTwoAtoms 3).warnings
      = [noBondsWarning 3] :=
  (c9_init_probes_universe_bonds agBondlessFrame none (5/2) frameTwoAtoms 3
    rfl rfl).2.2

/-- Claim C10: both checks are enabled by default — the default cutoffs are
0.8 (= 4/5) for overlaps and 2.5 (= 5/2) for bonds, neither default is
`None`, and default construction on a universe without bonds raises the
missing-topology error. -/
theorem c10_default_cutoffs :
    defaultAtomcut = some (4/5 : ℚ) ∧ defaultBondcut = some (5/2 : ℚ) ∧
      defaultAtomcut ≠ none ∧ defaultBondcut ≠ none ∧
      ∀ ag : AtomGroupU, ag.universeHasBonds = false →
        runDefault ag = .error (.noData noBondsErrmsg) := by
  refine ⟨by norm_num [defaultAtomcut], by norm_num [defaultBondcut],
    by simp [defaultAtomcut], by simp [defaultBondcut], fun ag h => ?_⟩
  unfold runDefault runCheckStructure init
  rw [show defaultBondcut = some (5/2 : ℚ) from by norm_num [defaultBondcut]]
  rw [h]
  simp

/-- Witness for C10 at a concrete bondless system. -/
theorem c10_witness :
    runDefault agNoTopology = .error (.noData noBondsErrmsg) :=
  c10_default_cutoffs.2.2.2.2 agNoTopology rfl

end CheckStructureSpec
